import Mathlib

/-
Verification development for the page-reconstruction core of
onenote_export/parser/one_store.py.

The module consumes a flat stream of already-decoded records
(type tag, identity string, property mapping) and reconstructs the
logical page structure of a notebook section: it classifies records,
reconciles page revisions, assembles one page per live grouping key,
and deduplicates pages by normalized title.

The shallow embedding below translates each Python helper into a Lean
function with the same name (leading underscores dropped).  Python
dictionaries, which preserve insertion order, are modelled as
association lists; dictionary update keeps the key position, insertion
of a fresh key appends.  Python dynamic property values are modelled by
the closed type PyValue covering the value kinds the code
distinguishes (int, bool, str, bytes, None, list).
-/

/-! ### JCID type names from the OneNote spec (module-level constants) -/

def PAGE_META : String := "jcidPageMetaData"

def SECTION_NODE : String := "jcidSectionNode"

def SECTION_META : String := "jcidSectionMetaData"

def PAGE_SERIES : String := "jcidPageSeriesNode"

def PAGE_MANIFEST : String := "jcidPageManifestNode"

def PAGE_NODE : String := "jcidPageNode"

def TITLE_NODE : String := "jcidTitleNode"

def OUTLINE_NODE : String := "jcidOutlineNode"

def OUTLINE_ELEMENT : String := "jcidOutlineElementNode"

def RICH_TEXT : String := "jcidRichTextOENode"

def IMAGE_NODE : String := "jcidImageNode"

def TABLE_NODE : String := "jcidTableNode"

def TABLE_ROW : String := "jcidTableRowNode"

def TABLE_CELL : String := "jcidTableCellNode"

def EMBEDDED_FILE : String := "jcidEmbeddedFileNode"

def NUMBER_LIST : String := "jcidNumberListNode"

def STYLE_CONTAINER : String := "jcidPersistablePropertyContainerForTOCSection"

def REVISION_META : String := "jcidRevisionMetaData"

/-! ### Python dynamic values -/

/-- PyValue models the dynamically typed property values the Python code
receives from the decoding library: integers, booleans, strings, byte
blobs, None, and (possibly nested) lists.  A byte blob is a list of
byte values 0..255. -/
inductive PyValue : Type where
  | int (n : Int)
  | bool (b : Bool)
  | str (s : String)
  | bytes (bs : List Nat)
  | none
  | list (vs : List PyValue)

/-- hexDigitChar gives the lowercase hexadecimal digit for n < 16. -/
def hexDigitChar (n : Nat) : Char :=
  if n < 10 then Char.ofNat (48 + n) else Char.ofNat (87 + n % 16)

/-- hexByte renders a byte value as two lowercase hex digits. -/
def hexByte (n : Nat) : String :=
  String.mk [hexDigitChar (n / 16 % 16), hexDigitChar (n % 16)]

/-- pyEscapeChar renders one character inside a Python repr delimited by
quote q: backslash and the quote are escaped, tab/newline/return use
their short escapes, printable ASCII is kept, anything else becomes a
hex escape.  (Characters above 255 are hex-escaped by their low byte;
no claim exercises this corner.) -/
def pyEscapeChar (q : Char) (c : Char) : String :=
  if c = '\\' then "\\\\"
  else if c = q then String.mk ['\\', q]
  else if c = '\t' then "\\t"
  else if c = '\n' then "\\n"
  else if c = '\r' then "\\r"
  else if 32 ≤ c.toNat ∧ c.toNat ≤ 126 then String.mk [c]
  else "\\x" ++ hexByte (c.toNat % 256)

/-- pickQuote chooses the repr delimiter the way CPython does: a single
quote unless the payload contains a single quote and no double quote. -/
def pickQuote (hasSingle hasDouble : Bool) : Char :=
  if hasSingle && !hasDouble then '"' else '\''

/-- pyStrRepr is Python repr of a str (quote choice plus escaping). -/
def pyStrRepr (s : String) : String :=
  let q := pickQuote (s.toList.contains '\'') (s.toList.contains '"')
  String.mk [q] ++ String.join (s.toList.map (pyEscapeChar q)) ++ String.mk [q]

/-- pyBytesRepr is Python repr of a bytes object. -/
def pyBytesRepr (bs : List Nat) : String :=
  let q := pickQuote (bs.contains 39) (bs.contains 34)
  "b" ++ String.mk [q] ++
    String.join (bs.map (fun b => pyEscapeChar q (Char.ofNat (b % 256)))) ++
    String.mk [q]

/-- pyRepr is Python repr restricted to the PyValue universe. -/
def pyRepr : PyValue → String
  | .int n => toString n
  | .bool b => if b then "True" else "False"
  | .str s => pyStrRepr s
  | .bytes bs => pyBytesRepr bs
  | .none => "None"
  | .list vs =>
      "[" ++ String.intercalate ", " (vs.attach.map (fun x => pyRepr x.1)) ++ "]"
decreasing_by
  have h := List.sizeOf_lt_of_mem x.2
  simp only [PyValue.list.sizeOf_spec]
  omega

/-- pyStr is Python str() on a PyValue: a str is returned as is, every
other value is rendered via its repr. -/
def pyStr : PyValue → String
  | .str s => s
  | v => pyRepr v

/-- pyTruthy is Python truthiness on a PyValue (used by `if name:`). -/
def pyTruthy : PyValue → Bool
  | .int n => n ≠ 0
  | .bool b => b
  | .str s => s ≠ ""
  | .bytes bs => bs ≠ []
  | .none => false
  | .list vs => !vs.isEmpty

/-! ### Data classes -/

/-- ExtractedObject mirrors the ExtractedObject dataclass: a parsed
object from the OneNote file.  The Python properties dict (string keys,
unique) is modelled as an association list in insertion order. -/
structure ExtractedObject : Type where
  obj_type : String
  identity : String
  properties : List (String × PyValue) := []

/-- ExtractedPage mirrors the ExtractedPage dataclass with its field
defaults: a page with its title and content objects. -/
structure ExtractedPage : Type where
  title : String := ""
  level : Int := 0
  author : String := ""
  creation_time : String := ""
  last_modified : String := ""
  objects : List ExtractedObject := []

/-- ExtractedSection mirrors the ExtractedSection dataclass: all pages
extracted from a single .one file.  The file_data dict is modelled as an
association list from embedded-file identifier to byte content. -/
structure ExtractedSection : Type where
  file_path : String := ""
  display_name : String := ""
  pages : List ExtractedPage := []
  file_data : List (String × List Nat) := []

/-! ### Module-level helper functions -/

/-- pyStrip models Python str.strip(): drop leading and trailing
whitespace characters.  Char.isWhitespace covers the ASCII whitespace
the claims exercise. -/
def pyStrip (s : String) : String :=
  String.mk
    (((s.toList.dropWhile Char.isWhitespace).reverse.dropWhile
        Char.isWhitespace).reverse)

/-- pyLower models Python str.lower() on the ASCII range: map every
uppercase letter to its lowercase form. -/
def pyLower (s : String) : String :=
  String.mk (s.toList.map Char.toLower)

/-- searchParenComma models re.search of the pattern "\\(([^,]+)," :
scan left to right for the first position holding an opening
parenthesis that is followed by a nonempty run of non-comma characters
and then a comma; return that run.  A match attempt at one position
failing, the scan resumes at the next position. -/
def searchParenComma : List Char → Option (List Char)
  | [] => Option.none
  | c :: rest =>
    if c = '(' then
      let run := rest.takeWhile (fun d => d ≠ ',')
      if run ≠ [] ∧ run.length < rest.length then some run
      else searchParenComma rest
    else searchParenComma rest

/-- extract_guid embeds _extract_guid: extract the GUID from an
ExtendedGUID identity string of the form "<ExtendedGUID> (guid, n)",
returning the stripped group between the parenthesis and the comma, or
the empty string when the pattern is absent. -/
def extract_guid (identity_str : String) : String :=
  match searchParenComma identity_str.toList with
  | some run => pyStrip (String.mk run)
  | Option.none => ""

/-- clean_text embeds _clean_text: remove every null byte, then strip
surrounding whitespace. -/
def clean_text (text : String) : String :=
  pyStrip (String.mk (text.toList.filter (fun c => c ≠ '\x00')))

/-- digitsVal is the numeric value of a run of decimal digits (what
Python int() returns on the matched digit group). -/
def digitsVal (cs : List Char) : Nat :=
  cs.foldl (fun acc c => 10 * acc + (c.toNat - 48)) 0

/-- firstDigitRun models re.search of the pattern "\\d+": the first
maximal contiguous run of decimal digits of the string, if any. -/
def firstDigitRun : List Char → Option (List Char)
  | [] => Option.none
  | c :: rest =>
    if c.isDigit then some (c :: rest.takeWhile Char.isDigit)
    else firstDigitRun rest

/-- intFromBytesLE is int.from_bytes(bs, "little"): the unsigned
little-endian value of a byte list. -/
def intFromBytesLE (bs : List Nat) : Nat :=
  bs.foldr (fun b acc => b + 256 * acc) 0

/-- parse_int embeds _parse_int: parse an integer from the various
value shapes the decoding library returns.  A Python bool passes the
isinstance(value, int) test and is returned unchanged; numerically True
is 1 and False is 0, so the bool arm yields that value.  The
int.from_bytes call of the source cannot raise on a bytes value, so its
try/except never produces the 0 of the except arm. -/
def parse_int : PyValue → Int
  | .int n => n
  | .bool b => if b then 1 else 0
  | .bytes bs => Int.ofNat (intFromBytesLE (bs.take 4))
  | .str s =>
    match firstDigitRun s.toList with
    | some run => Int.ofNat (digitsVal run)
    | Option.none => 0
  | .none => 0
  | .list _ => 0

/-- propGet models properties.get(key, dflt) on the association-list
encoding of a Python dict with unique keys. -/
def propGet (props : List (String × PyValue)) (key : String) (dflt : PyValue) :
    PyValue :=
  match props.find? (fun p => p.1 = key) with
  | some p => p.2
  | Option.none => dflt

/-! ### Record classification -/

/-- page_metas collects the page-metadata records of the input in
order, as the classification loop of _build_pages does. -/
def page_metas (objects : List ExtractedObject) : List ExtractedObject :=
  objects.filter (fun o => o.obj_type = PAGE_META)

/-- insertUniqueGuid appends a guid to the list unless already present,
as the page_node_guids accumulation of _build_pages does. -/
def insertUniqueGuid (guids : List String) (g : String) : List String :=
  if g ∈ guids then guids else guids ++ [g]

/-- page_node_guids is the ordered, deduplicated list of guids owning a
jcidPageNode record, in order of first appearance. -/
def page_node_guids (objects : List ExtractedObject) : List String :=
  objects.foldl
    (fun acc o =>
      if o.obj_type = PAGE_NODE then insertUniqueGuid acc (extract_guid o.identity)
      else acc)
    []

/-- guid_objects gives the bucket of one guid: the source builds a dict
guid -> list by setdefault/append over the input, so the entry of g is
exactly the input-order sublist of objects whose identity resolves
to g. -/
def guid_objects (objects : List ExtractedObject) (g : String) :
    List ExtractedObject :=
  objects.filter (fun o => extract_guid o.identity = g)

/-- assocInsert models Python dict assignment d[k] = v on an
association list with unique keys: overwrite in place if the key is
present, append otherwise (insertion order preserved). -/
def assocInsert :
    List (String × ExtractedObject) → String → ExtractedObject →
      List (String × ExtractedObject)
  | [], k, v => [(k, v)]
  | (k0, v0) :: rest, k, v =>
    if k0 = k then (k, v) :: rest else (k0, v0) :: assocInsert rest k v

/-- assocFind models Python dict lookup d.get(k) on an association
list. -/
def assocFind : List (String × ExtractedObject) → String → Option ExtractedObject
  | [], _ => Option.none
  | p :: rest, k => if p.1 = k then some p.2 else assocFind rest k

/-- meta_by_guid builds the GUID -> page metadata lookup of
_build_pages; later entries (newer revisions) overwrite earlier ones
for the same guid. -/
def meta_by_guid (metas : List ExtractedObject) :
    List (String × ExtractedObject) :=
  metas.foldl (fun acc m => assocInsert acc (extract_guid m.identity) m) []

/-- orphan_metas is the initial orphan pool of _build_pages: the
entries of meta_by_guid whose guid owns no page node, in dict order. -/
def orphan_metas (objects : List ExtractedObject) :
    List (String × ExtractedObject) :=
  (meta_by_guid (page_metas objects)).filter
    (fun p => p.1 ∉ page_node_guids objects)

/-- CONTENT_TYPES is the set of content record types _build_pages
collects into a page (the source lists the same nine type tags both in
the degenerate branch and in the per-guid branch). -/
def CONTENT_TYPES : List String :=
  [RICH_TEXT, IMAGE_NODE, TABLE_NODE, TABLE_ROW, TABLE_CELL, EMBEDDED_FILE,
   OUTLINE_ELEMENT, OUTLINE_NODE, NUMBER_LIST]

/-- isContent tests membership of a record type in CONTENT_TYPES. -/
def isContent (o : ExtractedObject) : Bool :=
  CONTENT_TYPES.contains o.obj_type

/-! ### Page assembly and deduplication -/

/-- dedupInsert embeds the dedup block of _build_pages.  The source
keeps a dict seen_titles mapping a normalized title to the index of the
page stored for it; here each stored page carries its key, so the dict
is the set of keys of the list and the indexed replacement becomes a
first-match replacement.  A colliding page replaces the stored one only
when it has strictly more content objects; a fresh key is appended. -/
def dedupInsert :
    List (String × ExtractedPage) → String → ExtractedPage →
      List (String × ExtractedPage)
  | [], key, page => [(key, page)]
  | (k0, stored) :: rest, key, page =>
    if k0 = key then
      (if page.objects.length > stored.objects.length then (key, page)
       else (k0, stored)) :: rest
    else (k0, stored) :: dedupInsert rest key page

/-- AssembleState is the loop state of the per-guid pass of
_build_pages: the keyed pages built so far and the remaining orphan
pool. -/
structure AssembleState : Type where
  pages : List (String × ExtractedPage) := []
  orphans : List (String × ExtractedObject) := []

/-- build_page_step is the body of the per-guid loop of _build_pages:
resolve metadata (own guid first, else consume the first available
orphan), read title/level/creation from it, read author/last-modified
from the first page-node record of the bucket, collect the bucket's
content records, finalize the title with the "Untitled" sentinel, and
insert the page keyed by the normalized (pre-sentinel) title. -/
def build_page_step (objects : List ExtractedObject)
    (metaBy : List (String × ExtractedObject))
    (st : AssembleState) (content_guid : String) : AssembleState :=
  let objs := guid_objects objects content_guid
  let metaOrphans : Option ExtractedObject × List (String × ExtractedObject) :=
    match assocFind metaBy content_guid with
    | some m => (some m, st.orphans)
    | Option.none =>
      match st.orphans with
      | [] => (Option.none, st.orphans)
      | o :: rest => (some o.2, rest)
  let meta := metaOrphans.1
  let title :=
    match meta with
    | some m => clean_text (pyStr (propGet m.properties "CachedTitleString" (.str "")))
    | Option.none => ""
  let level : Int :=
    match meta with
    | some m => parse_int (propGet m.properties "PageLevel" (.int 0))
    | Option.none => 0
  let creation :=
    match meta with
    | some m => pyStr (propGet m.properties "TopologyCreationTimeStamp" (.str ""))
    | Option.none => ""
  let authorLM :=
    match objs.find? (fun o => o.obj_type = PAGE_NODE) with
    | some o =>
      (clean_text (pyStr (propGet o.properties "Author" (.str ""))),
       pyStr (propGet o.properties "LastModifiedTime" (.str "")))
    | Option.none => ("", "")
  let content := objs.filter isContent
  let page : ExtractedPage :=
    { title := if title = "" then "Untitled" else title
      level := level
      author := authorLM.1
      creation_time := creation
      last_modified := authorLM.2
      objects := content }
  let key := pyStrip (pyLower title)
  { pages := dedupInsert st.pages key page, orphans := metaOrphans.2 }

/-- assemble_pages runs the per-guid loop of _build_pages over every
content guid, starting from the empty page list and the initial orphan
pool. -/
def assemble_pages (objects : List ExtractedObject) : AssembleState :=
  (page_node_guids objects).foldl
    (build_page_step objects (meta_by_guid (page_metas objects)))
    { pages := [], orphans := orphan_metas objects }

/-- build_pages embeds _build_pages: with no page metadata anywhere,
emit at most one page holding every content record of the input;
otherwise run the per-guid assembly and return the surviving pages in
first-seen key order. -/
def build_pages (objects : List ExtractedObject) : List ExtractedPage :=
  if (page_metas objects).isEmpty then
    let all_content := objects.filter isContent
    if all_content.isEmpty then [] else [{ objects := all_content }]
  else
    (assemble_pages objects).pages.map (fun p => p.2)

/-! ### Section-level parsing -/

/-- extract_section_name embeds _extract_section_name: scan for a
section-metadata record whose SectionDisplayName property is truthy and
return it stringified and stripped; default to the empty string. -/
def extract_section_name : List ExtractedObject → String
  | [] => ""
  | obj :: rest =>
    if obj.obj_type = SECTION_META then
      let name := propGet obj.properties "SectionDisplayName" (.str "")
      if pyTruthy name then pyStrip (pyStr name) else extract_section_name rest
    else extract_section_name rest

/-- ONE_UUID stands for Header.ONE_UUID of the decoding library: the
file-type GUID every valid .one container carries.  The library is the
external boundary; only equality against this constant matters here. -/
def ONE_UUID : String := "7B5C52E4-D88C-4DA7-AEB1-5378D02996D3"

/-- OneDoc models the output of the decoding boundary (pyOneNote) that
OneStoreParser.parse consumes: the header's file-type GUID, the decoded
objects, and the embedded-file map. -/
structure OneDoc : Type where
  guidFileType : String
  props : List ExtractedObject := []
  files : List (String × List Nat) := []

/-- parse embeds OneStoreParser.parse past the decoding boundary: a
document whose file-type GUID is not the .one GUID raises ValueError
(modelled as Except.error), so no section value is produced; otherwise
the section is assembled from the decoded objects, dropping embedded
files with empty content. -/
def parse (file_path : String) (doc : OneDoc) : Except String ExtractedSection :=
  if doc.guidFileType ≠ ONE_UUID then
    Except.error (file_path ++ " is not a .one file")
  else
    Except.ok
      { file_path := file_path
        display_name := extract_section_name doc.props
        pages := build_pages doc.props
        file_data := doc.files.filter (fun p => p.2 ≠ []) }

/-! ### List helper lemmas -/

theorem takeWhile_append_all {α : Type} {p : α → Bool} (l1 l2 : List α)
    (h : ∀ c ∈ l1, p c = true) :
    (l1 ++ l2).takeWhile p = l1 ++ l2.takeWhile p := by
  induction l1 with
  | nil => simp
  | cons c cs ih =>
    have hc := h c (by simp)
    have ht := ih (fun d hd => h d (by simp [hd]))
    simp [List.takeWhile_cons, hc, ht]

theorem takeWhile_head_false {α : Type} {p : α → Bool} (l : List α)
    (h : ∀ c, l.head? = some c → p c = false) : l.takeWhile p = [] := by
  cases l with
  | nil => rfl
  | cons c cs => simp [List.takeWhile_cons, h c rfl]

theorem dropWhile_head_false {α : Type} {p : α → Bool} :
    ∀ (l : List α) (c : α) (tl : List α), l.dropWhile p = c :: tl → p c = false := by
  intro l
  induction l with
  | nil => intro c tl h; simp [List.dropWhile] at h
  | cons a as ih =>
    intro c tl h
    rw [List.dropWhile_cons] at h
    by_cases hp : p a
    · rw [if_pos hp] at h; exact ih c tl h
    · rw [if_neg hp] at h
      cases h
      simpa using hp

/-! ### C3: integer parsing -/

theorem firstDigitRun_skip (a l : List Char) (ha : ∀ c ∈ a, c.isDigit = false) :
    firstDigitRun (a ++ l) = firstDigitRun l := by
  induction a with
  | nil => rfl
  | cons c cs ih =>
    simp only [List.cons_append, firstDigitRun, ha c (by simp)]
    exact ih (fun d hd => ha d (by simp [hd]))

theorem firstDigitRun_no_digit (l : List Char) (h : ∀ c ∈ l, c.isDigit = false) :
    firstDigitRun l = Option.none := by
  have := firstDigitRun_skip l [] h
  simpa using this

/-- C3 counterexample: the claim says every boolean yields 0, but the
source's isinstance(value, int) test accepts a Python bool, so True is
passed through and has the integer value 1, not 0. -/
theorem parse_int_true_cex : parse_int (.bool true) = 1 ∧ (1 : Int) ≠ 0 :=
  ⟨rfl, by decide⟩

/-- C3 (amended): integer parsing case analysis.  An integer (including
a negative one) is returned unchanged; a boolean passes the integer
test and is returned unchanged, so True yields 1 and False yields 0; a
byte blob yields the unsigned little-endian value of at most its first
4 bytes; a string yields its first contiguous run of decimal digits
parsed as an integer, or 0 if the string contains no digit; None and a
list (the remaining value kinds) yield 0. -/
theorem parse_int_case_analysis :
    (∀ n : Int, parse_int (.int n) = n) ∧
    (∀ b : Bool, parse_int (.bool b) = if b then 1 else 0) ∧
    (parse_int (.bytes []) = 0) ∧
    (∀ b0 : Nat, parse_int (.bytes [b0]) = (b0 : Int)) ∧
    (∀ b0 b1 : Nat, parse_int (.bytes [b0, b1]) = (b0 : Int) + 256 * b1) ∧
    (∀ b0 b1 b2 : Nat,
      parse_int (.bytes [b0, b1, b2]) = (b0 : Int) + 256 * b1 + 65536 * b2) ∧
    (∀ (b0 b1 b2 b3 : Nat) (rest : List Nat),
      parse_int (.bytes (b0 :: b1 :: b2 :: b3 :: rest)) =
        (b0 : Int) + 256 * b1 + 65536 * b2 + 16777216 * b3) ∧
    (∀ a run b : List Char,
      (∀ c ∈ a, c.isDigit = false) → run ≠ [] → (∀ c ∈ run, c.isDigit = true) →
      (∀ c, b.head? = some c → c.isDigit = false) →
      parse_int (.str (String.mk (a ++ run ++ b))) = Int.ofNat (digitsVal run)) ∧
    (∀ s : String, (∀ c ∈ s.toList, c.isDigit = false) → parse_int (.str s) = 0) ∧
    parse_int .none = 0 ∧
    (∀ vs, parse_int (.list vs) = 0) := by
  refine ⟨fun n => rfl, fun b => rfl, rfl, ?_, ?_, ?_, ?_, ?_, ?_, rfl, fun vs => rfl⟩
  · intro b0
    simp [parse_int, intFromBytesLE]
  · intro b0 b1
    simp [parse_int, intFromBytesLE]
    try push_cast
    try ring
  · intro b0 b1 b2
    simp [parse_int, intFromBytesLE]
    try push_cast
    try ring
  · intro b0 b1 b2 b3 rest
    simp [parse_int, intFromBytesLE, List.take]
    try push_cast
    try ring
  · intro a run b ha hr hrd hb
    have hfdr : firstDigitRun (a ++ (run ++ b)) = some run := by
      rw [firstDigitRun_skip a (run ++ b) ha]
      cases run with
      | nil => exact absurd rfl hr
      | cons r rtl =>
        have hrhead : r.isDigit = true := hrd r (by simp)
        have htail : ∀ c ∈ rtl, Char.isDigit c = true :=
          fun c hc => hrd c (by simp [hc])
        simp only [List.cons_append, firstDigitRun, hrhead, if_true,
          List.append_eq]
        rw [takeWhile_append_all rtl b htail, takeWhile_head_false b hb]
        simp
    simp [parse_int, hfdr]
  · intro s hs
    have h2 : firstDigitRun s.data = Option.none := firstDigitRun_no_digit s.data hs
    simp [parse_int, h2]

/-- C3 witness: the amended case analysis instantiated at concrete
inputs from the repository's own tests. -/
theorem parse_int_case_analysis_witness :
    parse_int (.str "level: 3") = 3 ∧ parse_int (.bytes [5, 0]) = 5 := by
  constructor
  · have h := parse_int_case_analysis.2.2.2.2.2.2.2.1
      ['l', 'e', 'v', 'e', 'l', ':', ' '] ['3'] []
      (by decide) (by decide) (by decide) (by decide)
    exact h
  · have h := parse_int_case_analysis.2.2.2.2.1 5 0
    simpa using h

/-! ### C4: identity resolver -/

theorem searchParenComma_skip (l1 l2 : List Char) (h : ∀ c ∈ l1, c ≠ '(') :
    searchParenComma (l1 ++ l2) = searchParenComma l2 := by
  induction l1 with
  | nil => rfl
  | cons c cs ih =>
    have hc : ¬ (c = '(') := h c (by simp)
    simp only [List.cons_append, searchParenComma, if_neg hc]
    exact ih (fun d hd => h d (by simp [hd]))

theorem searchParenComma_hit (key tail2 : List Char) (hk : key ≠ [])
    (hc : ∀ c ∈ key, c ≠ ',') :
    searchParenComma ('(' :: (key ++ ',' :: tail2)) = some key := by
  have htw : (key ++ ',' :: tail2).takeWhile (fun d => decide (d ≠ ',')) = key := by
    rw [takeWhile_append_all key (',' :: tail2) (fun c hcc => by simp [hc c hcc])]
    simp [List.takeWhile_cons]
  have hlen : key.length < (key ++ ',' :: tail2).length := by
    simp [List.length_append]
  show (if ('(' : Char) = '(' then
      let run := (key ++ ',' :: tail2).takeWhile (fun d => decide (d ≠ ','))
      if run ≠ [] ∧ run.length < (key ++ ',' :: tail2).length then some run
      else searchParenComma (key ++ ',' :: tail2)
    else searchParenComma (key ++ ',' :: tail2)) = some key
  rw [if_pos rfl]
  simp only [htw]
  rw [if_pos ⟨hk, hlen⟩]

theorem searchParenComma_some_decomp :
    ∀ (l r : List Char), searchParenComma l = some r →
      ∃ pre mid post : List Char, l = pre ++ '(' :: (mid ++ ',' :: post) := by
  intro l
  induction l with
  | nil => intro r h; simp [searchParenComma] at h
  | cons c rest ih =>
    intro r h
    by_cases hc : c = '('
    · subst hc
      simp only [searchParenComma, if_pos rfl] at h
      by_cases hcond :
          rest.takeWhile (fun d => decide (d ≠ ',')) ≠ [] ∧
            (rest.takeWhile (fun d => decide (d ≠ ','))).length < rest.length
      · have hsplit :
            rest.takeWhile (fun d => decide (d ≠ ',')) ++
              rest.dropWhile (fun d => decide (d ≠ ',')) = rest :=
          List.takeWhile_append_dropWhile (fun d => decide (d ≠ ',')) rest
        cases hdwc : rest.dropWhile (fun d => decide (d ≠ ',')) with
        | nil =>
          exfalso
          rw [hdwc, List.append_nil] at hsplit
          have hlt := hcond.2
          rw [hsplit] at hlt
          exact lt_irrefl _ hlt
        | cons d dtl =>
          have hd := dropWhile_head_false rest d dtl hdwc
          have hdc : d = ',' := by simpa using hd
          have hrest :
              rest = rest.takeWhile (fun d => decide (d ≠ ',')) ++ ',' :: dtl := by
            conv_lhs => rw [← hsplit]
            rw [hdwc, hdc]
          refine ⟨[], rest.takeWhile (fun d => decide (d ≠ ',')), dtl, ?_⟩
          rw [List.nil_append]
          exact congrArg (fun l => '(' :: l) hrest
      · rw [if_neg hcond] at h
        obtain ⟨pre, mid, post, hx⟩ := ih r h
        exact ⟨'(' :: pre, mid, post, by rw [hx]; rfl⟩
    · simp only [searchParenComma, if_neg hc] at h
      obtain ⟨pre, mid, post, hx⟩ := ih r h
      exact ⟨c :: pre, mid, post, by rw [hx]; rfl⟩

/-- C4: for every identity string of the form X(key,n) whose prefix X
holds no opening parenthesis and whose key holds no comma and is
nonempty, _extract_guid returns the key stripped of surrounding
whitespace; for every string in which no comma follows an opening
parenthesis (in particular a string with no parenthesis or no comma),
it returns the empty string.  The embedded function is total, matching
the never-raises contract. -/
theorem extract_guid_spec :
    (∀ X key n : String, '(' ∉ X.toList → ',' ∉ key.toList → key ≠ "" →
      extract_guid (X ++ "(" ++ key ++ "," ++ n) = pyStrip key) ∧
    (∀ s : String,
      (¬ ∃ pre mid post : List Char,
          s.toList = pre ++ '(' :: (mid ++ ',' :: post)) →
      extract_guid s = "") := by
  constructor
  · intro X key n hX hkey hne
    have hk : key.toList ≠ [] := by
      intro h0
      apply hne
      have h1 : key = String.mk key.toList := rfl
      rw [h0] at h1
      exact h1
    have hdata : (X ++ "(" ++ key ++ "," ++ n).toList
        = X.toList ++ ('(' :: (key.toList ++ ',' :: n.toList)) := by
      show (((X.toList ++ "(".toList) ++ key.toList) ++ ",".toList) ++ n.toList
          = X.toList ++ ('(' :: (key.toList ++ ',' :: n.toList))
      simp
    have hXp : ∀ c ∈ X.toList, c ≠ '(' := fun c hcm heq => hX (heq ▸ hcm)
    have hkc : ∀ c ∈ key.toList, c ≠ ',' := fun c hcm heq => hkey (heq ▸ hcm)
    show (match searchParenComma (X ++ "(" ++ key ++ "," ++ n).toList with
      | some run => pyStrip (String.mk run)
      | Option.none => "") = pyStrip key
    rw [hdata, searchParenComma_skip X.toList _ hXp,
      searchParenComma_hit key.toList n.toList hk hkc]
    rfl
  · intro s hno
    cases hsp : searchParenComma s.toList with
    | none =>
      show (match searchParenComma s.toList with
        | some run => pyStrip (String.mk run)
        | Option.none => "") = ""
      rw [hsp]
    | some r => exact absurd (searchParenComma_some_decomp s.toList r hsp) hno

/-- C4 witness: the resolver at the repository's own test inputs. -/
theorem extract_guid_spec_witness :
    extract_guid "<ExtendedGUID> (abc-def-123, 42)" = "abc-def-123" ∧
    extract_guid "no-parens-here" = "" := by
  constructor
  · exact extract_guid_spec.1 "<ExtendedGUID> " "abc-def-123" " 42)"
      (by decide) (by decide) (by decide)
  · refine extract_guid_spec.2 "no-parens-here" ?_
    rintro ⟨pre, mid, post, h⟩
    have hmem : '(' ∈ "no-parens-here".toList := by
      rw [h]; simp
    exact absurd hmem (by decide)

/-! ### C5: degenerate no-metadata path -/

/-- C5: with zero page-metadata records in the input, _build_pages
emits exactly one page holding every content-typed record of the whole
input in original relative order, and no page at all when there is no
content record; the emitted page carries the dataclass defaults for
title, level and author. -/
theorem build_pages_degenerate (objects : List ExtractedObject)
    (h : page_metas objects = []) :
    (objects.filter isContent = [] → build_pages objects = []) ∧
    (objects.filter isContent ≠ [] →
      build_pages objects = [{ objects := objects.filter isContent }]) := by
  constructor
  · intro hc
    simp [build_pages, h, hc]
  · intro hc
    simp [build_pages, h, hc]

def rtW : ExtractedObject :=
  { obj_type := RICH_TEXT, identity := "<ExtendedGUID> (W1, 1)" }

def secW : ExtractedObject :=
  { obj_type := SECTION_NODE, identity := "<ExtendedGUID> (W2, 1)" }

/-- C5 witness: a metadata-less input with one content record yields a
single default page holding exactly that record. -/
theorem build_pages_degenerate_witness :
    page_metas [secW, rtW] = [] ∧
    build_pages [secW, rtW] = [{ objects := [rtW] }] := by
  refine ⟨rfl, ?_⟩
  have hfil : [secW, rtW].filter isContent = [rtW] := rfl
  have h := (build_pages_degenerate [secW, rtW] rfl).2
    (by rw [hfil]; exact List.cons_ne_nil _ _)
  rw [hfil] at h
  exact h

/-! ### C9: fatal format error -/

/-- C9: a document whose header file-type GUID is not the .one GUID
makes parse raise the fatal format error, propagated to the caller as
the error result; no (partial or other) section value is returned. -/
theorem parse_format_error (file_path : String) (doc : OneDoc)
    (h : doc.guidFileType ≠ ONE_UUID) :
    parse file_path doc = Except.error (file_path ++ " is not a .one file") ∧
    ∀ s : ExtractedSection, parse file_path doc ≠ Except.ok s := by
  have hp : parse file_path doc
      = Except.error (file_path ++ " is not a .one file") := by
    simp [parse, h]
  refine ⟨hp, fun s hs => ?_⟩
  rw [hp] at hs
  exact Except.noConfusion hs

/-- C9 witness: a document with a foreign file-type GUID is rejected. -/
theorem parse_format_error_witness :
    ({ guidFileType := "PDF" } : OneDoc).guidFileType ≠ ONE_UUID ∧
    parse "notes.one" { guidFileType := "PDF" } =
      Except.error "notes.one is not a .one file" := by
  refine ⟨by decide, ?_⟩
  exact (parse_format_error "notes.one" { guidFileType := "PDF" } (by decide)).1

/-! ### C6: later metadata wins -/

theorem assocFind_assocInsert (l : List (String × ExtractedObject))
    (k g : String) (v : ExtractedObject) :
    assocFind (assocInsert l k v) g = if g = k then some v else assocFind l g := by
  induction l with
  | nil =>
    by_cases hg : g = k
    · simp [assocInsert, assocFind, hg]
    · simp [assocInsert, assocFind, hg, Ne.symm hg]
  | cons p rest ih =>
    by_cases hpk : p.1 = k
    · rw [assocInsert, if_pos hpk]
      by_cases hg : g = k
      · simp [assocFind, hg]
      · rw [if_neg hg, assocFind, if_neg (fun h => hg h.symm),
          assocFind, if_neg (fun h => hg (hpk ▸ h).symm)]
    · rw [assocInsert, if_neg hpk]
      by_cases hpg : p.1 = g
      · have hg : ¬ (g = k) := fun h => hpk (h ▸ hpg)
        rw [if_neg hg, assocFind, if_pos hpg, assocFind, if_pos hpg]
      · rw [assocFind, if_neg hpg, ih, assocFind, if_neg hpg]

theorem assocFind_meta_by_guid (metas : List ExtractedObject) (g : String) :
    assocFind (meta_by_guid metas) g =
      (metas.filter (fun m => extract_guid m.identity = g)).getLast? := by
  induction metas using List.reverseRecOn with
  | nil => rfl
  | append_singleton ms m ih =>
    rw [meta_by_guid, List.foldl_append, List.foldl_cons, List.foldl_nil]
    rw [show (List.foldl (fun acc m => assocInsert acc (extract_guid m.identity) m)
      [] ms) = meta_by_guid ms from rfl]
    rw [assocFind_assocInsert, List.filter_append]
    by_cases hm : extract_guid m.identity = g
    · rw [if_pos hm.symm]
      simp [hm]
    · rw [if_neg (fun hg => hm hg.symm), ih]
      simp [hm]

/-- C6: the owned-metadata lookup maps a grouping key to the
page-metadata record of that key appearing latest in the original
input sequence (later revisions supersede earlier ones). -/
theorem meta_by_guid_latest_wins (objects : List ExtractedObject) (g : String) :
    assocFind (meta_by_guid (page_metas objects)) g =
      (objects.filter
        (fun o => o.obj_type = PAGE_META ∧ extract_guid o.identity = g)).getLast? := by
  rw [assocFind_meta_by_guid, page_metas, List.filter_filter]
  have hpred :
      (fun o => decide (extract_guid o.identity = g) &&
        decide (o.obj_type = PAGE_META)) =
      (fun o : ExtractedObject =>
        decide (o.obj_type = PAGE_META ∧ extract_guid o.identity = g)) := by
    funext o
    by_cases h1 : o.obj_type = PAGE_META <;>
      by_cases h2 : extract_guid o.identity = g <;> simp [h1, h2]
  rw [hpred]

/-! ### C7: richer page wins deduplication -/

/-- C7: two pages sharing a normalized title with content counts 2 and
5 leave, in either arrival order, exactly the 5-object page surviving;
in general a colliding page replaces the page stored for its key only
when it has strictly more content objects, and is discarded
otherwise. -/
theorem dedup_richer_wins :
    (∀ (key : String) (p2 p5 : ExtractedPage),
      p2.objects.length = 2 → p5.objects.length = 5 →
      dedupInsert (dedupInsert [] key p2) key p5 = [(key, p5)] ∧
      dedupInsert (dedupInsert [] key p5) key p2 = [(key, p5)]) ∧
    (∀ (pre rest : List (String × ExtractedPage)) (key : String)
      (stored page : ExtractedPage),
      (∀ e ∈ pre, e.1 ≠ key) →
      dedupInsert (pre ++ (key, stored) :: rest) key page =
        pre ++ ((if page.objects.length > stored.objects.length then (key, page)
                 else (key, stored)) :: rest)) := by
  constructor
  · intro key p2 p5 h2 h5
    constructor
    · simp [dedupInsert, h2, h5]
    · simp [dedupInsert, h2, h5]
  · intro pre rest key stored page hpre
    induction pre with
    | nil =>
      simp only [List.nil_append]
      rw [dedupInsert, if_pos rfl]
    | cons e etl ih =>
      obtain ⟨k0, p0⟩ := e
      have he : k0 ≠ key := hpre (k0, p0) (by simp)
      simp only [List.cons_append]
      rw [dedupInsert, if_neg he, ih (fun x hx => hpre x (by simp [hx]))]

def pTwo : ExtractedPage := { title := "Notes", objects := [rtW, rtW] }

def pFive : ExtractedPage :=
  { title := "Notes", objects := [rtW, rtW, rtW, rtW, rtW] }

/-- C7 witness: concrete colliding pages with 2 and 5 content objects,
inserted in both orders. -/
theorem dedup_richer_wins_witness :
    pTwo.objects.length = 2 ∧ pFive.objects.length = 5 ∧
    dedupInsert (dedupInsert [] "notes" pTwo) "notes" pFive = [("notes", pFive)] ∧
    dedupInsert (dedupInsert [] "notes" pFive) "notes" pTwo = [("notes", pFive)] := by
  have h := dedup_richer_wins.1 "notes" pTwo pFive rfl rfl
  exact ⟨rfl, rfl, h.1, h.2⟩

/-! ### C8: orphan consumption -/

def containerA : ExtractedObject :=
  { obj_type := PAGE_NODE, identity := "<ExtendedGUID> (A, 1)" }

def orphanB : ExtractedObject :=
  { obj_type := PAGE_META, identity := "<ExtendedGUID> (B, 1)",
    properties := [("CachedTitleString", .str "Orphan Title")] }

/-- C8: a container-owning grouping key with no metadata of its own
consumes exactly the first available orphan metadata record, which is
removed from the orphan pool and never reused; concretely, container
key A with orphan metadata key B titled "Orphan Title" yields one page
titled "Orphan Title" and an empty orphan pool afterwards. -/
theorem orphan_consumed_once :
    (∀ (objects : List ExtractedObject)
      (metaBy orest : List (String × ExtractedObject))
      (st : AssembleState) (g : String) (o : String × ExtractedObject),
      assocFind metaBy g = Option.none → st.orphans = o :: orest →
      (build_page_step objects metaBy st g).orphans = orest) ∧
    assemble_pages [containerA, orphanB] =
      { pages := [("orphan title", { title := "Orphan Title" })], orphans := [] } ∧
    build_pages [containerA, orphanB] = [{ title := "Orphan Title" }] := by
  refine ⟨?_, rfl, rfl⟩
  intro objects metaBy orest st g o hfind horph
  simp [build_page_step, hfind, horph]

/-- C8 witness: the general consumption rule at the concrete A/B
scenario, starting from the initial assembly state. -/
theorem orphan_consumed_once_witness :
    assocFind (meta_by_guid (page_metas [containerA, orphanB])) "A" = Option.none ∧
    ({ pages := [], orphans := orphan_metas [containerA, orphanB] } :
      AssembleState).orphans = ("B", orphanB) :: [] ∧
    (build_page_step [containerA, orphanB]
      (meta_by_guid (page_metas [containerA, orphanB]))
      { pages := [], orphans := orphan_metas [containerA, orphanB] }
      "A").orphans = [] := by
  refine ⟨rfl, rfl, ?_⟩
  exact orphan_consumed_once.1 [containerA, orphanB]
    (meta_by_guid (page_metas [containerA, orphanB])) []
    { pages := [], orphans := orphan_metas [containerA, orphanB] }
    "A" ("B", orphanB) rfl rfl

/-! ### C10: dedup keys are computed before the Untitled sentinel -/

theorem dedupInsert_other_key (l : List (String × ExtractedPage))
    (key : String) (page : ExtractedPage) (k2 : String) (hne : k2 ≠ key) :
    (dedupInsert l key page).filter (fun e => e.1 = k2) =
      l.filter (fun e => e.1 = k2) := by
  induction l with
  | nil => simp [dedupInsert, Ne.symm hne]
  | cons e etl ih =>
    obtain ⟨k0, p0⟩ := e
    by_cases hk : k0 = key
    · rw [dedupInsert, if_pos hk]
      by_cases hrepl : page.objects.length > p0.objects.length
      · rw [if_pos hrepl]
        subst hk
        simp [List.filter_cons, Ne.symm hne]
      · rw [if_neg hrepl]
    · rw [dedupInsert, if_neg hk]
      by_cases hk2 : k0 = k2
      · simp [List.filter_cons, hk2, ih]
      · simp [List.filter_cons, hk2, ih]

def nodeLA : ExtractedObject :=
  { obj_type := PAGE_NODE, identity := "<ExtendedGUID> (LA, 1)" }

def metaLA : ExtractedObject :=
  { obj_type := PAGE_META, identity := "<ExtendedGUID> (LA, 2)",
    properties := [("CachedTitleString", .str "Untitled")] }

def nodeLB : ExtractedObject :=
  { obj_type := PAGE_NODE, identity := "<ExtendedGUID> (LB, 1)" }

def nodeFC : ExtractedObject :=
  { obj_type := PAGE_NODE, identity := "<ExtendedGUID> (FC, 1)" }

def metaFC : ExtractedObject :=
  { obj_type := PAGE_META, identity := "<ExtendedGUID> (FC, 2)" }

def nodeFD : ExtractedObject :=
  { obj_type := PAGE_NODE, identity := "<ExtendedGUID> (FD, 1)" }

/-- C10: the dedup key of a page is its cleaned metadata title before
the "Untitled" sentinel is substituted.  Inserting under one key never
touches the entries stored under a different key, so a page whose
metadata title is literally "Untitled" (key "untitled") is never merged
with a failed-resolution page (key ""): concretely guids LA (metadata
title "Untitled") and LB (failed resolution) both survive, displaying
the same title, while two failed-resolution guids FC and FD share the
key "" and compete for a single slot. -/
theorem dedup_key_pre_sentinel :
    (∀ (l : List (String × ExtractedPage)) (key : String)
      (page : ExtractedPage) (k2 : String), k2 ≠ key →
      (dedupInsert l key page).filter (fun e => e.1 = k2) =
        l.filter (fun e => e.1 = k2)) ∧
    assemble_pages [nodeLA, metaLA, nodeLB] =
      { pages := [("untitled", { title := "Untitled" }),
                  ("", { title := "Untitled" })],
        orphans := [] } ∧
    build_pages [nodeLA, metaLA, nodeLB] =
      [{ title := "Untitled" }, { title := "Untitled" }] ∧
    assemble_pages [nodeFC, metaFC, nodeFD] =
      { pages := [("", { title := "Untitled" })], orphans := [] } ∧
    build_pages [nodeFC, metaFC, nodeFD] = [{ title := "Untitled" }] :=
  ⟨dedupInsert_other_key, rfl, rfl, rfl, rfl⟩

/-- C10 witness: the non-interference rule applied at the two concrete
keys "untitled" and "". -/
theorem dedup_key_pre_sentinel_witness :
    ("untitled" : String) ≠ "" ∧
    (dedupInsert [("untitled", { title := "Untitled" })] ""
        { title := "Untitled" }).filter (fun e => e.1 = "untitled") =
      [(("untitled" : String), ({ title := "Untitled" } : ExtractedPage))].filter
        (fun e => e.1 = "untitled") := by
  refine ⟨by decide, ?_⟩
  exact dedup_key_pre_sentinel.1 [("untitled", { title := "Untitled" })] ""
    { title := "Untitled" } "untitled" (by decide)

/-! ### C1: dedup key uniqueness -/

theorem mem_dedupInsert (l : List (String × ExtractedPage)) (key : String)
    (page : ExtractedPage) (e : String × ExtractedPage) :
    e ∈ dedupInsert l key page → e ∈ l ∨ e = (key, page) := by
  induction l with
  | nil =>
    intro h
    simp [dedupInsert] at h
    exact Or.inr h
  | cons e0 etl ih =>
    obtain ⟨k0, p0⟩ := e0
    intro h
    by_cases hk : k0 = key
    · rw [dedupInsert, if_pos hk] at h
      by_cases hr : page.objects.length > p0.objects.length
      · rw [if_pos hr] at h
        rcases List.mem_cons.mp h with h1 | h1
        · exact Or.inr h1
        · exact Or.inl (List.mem_cons_of_mem _ h1)
      · rw [if_neg hr] at h
        exact Or.inl h
    · rw [dedupInsert, if_neg hk] at h
      rcases List.mem_cons.mp h with h1 | h1
      · exact Or.inl (by simp [h1])
      · rcases ih h1 with h2 | h2
        · exact Or.inl (List.mem_cons_of_mem _ h2)
        · exact Or.inr h2

theorem dedupInsert_keys (l : List (String × ExtractedPage)) (key : String)
    (page : ExtractedPage) :
    (dedupInsert l key page).map Prod.fst =
      if key ∈ l.map Prod.fst then l.map Prod.fst
      else l.map Prod.fst ++ [key] := by
  induction l with
  | nil => simp [dedupInsert]
  | cons e etl ih =>
    obtain ⟨k0, p0⟩ := e
    by_cases hk : k0 = key
    · subst hk
      rw [dedupInsert, if_pos rfl]
      by_cases hrepl : page.objects.length > p0.objects.length
      · rw [if_pos hrepl]; simp
      · rw [if_neg hrepl]; simp
    · rw [dedupInsert, if_neg hk]
      by_cases hmem : key ∈ etl.map Prod.fst
      · simp [List.map_cons, ih, hmem, Ne.symm hk]
      · simp [List.map_cons, ih, hmem, Ne.symm hk]

theorem dedupInsert_keys_nodup (l : List (String × ExtractedPage)) (key : String)
    (page : ExtractedPage) (h : (l.map Prod.fst).Nodup) :
    ((dedupInsert l key page).map Prod.fst).Nodup := by
  rw [dedupInsert_keys]
  by_cases hmem : key ∈ l.map Prod.fst
  · rwa [if_pos hmem]
  · rw [if_neg hmem]
    simp [List.nodup_append, h, hmem]

theorem ite_title_ne (t : String) : (if t = "" then "Untitled" else t) ≠ "" := by
  split
  · decide
  · assumption

theorem build_page_step_pages (objects : List ExtractedObject)
    (metaBy : List (String × ExtractedObject)) (st : AssembleState) (g : String) :
    ∀ e ∈ (build_page_step objects metaBy st g).pages,
      e ∈ st.pages ∨ e.2.title ≠ "" := by
  intro e he
  simp only [build_page_step] at he
  rcases mem_dedupInsert _ _ _ _ he with h1 | h1
  · exact Or.inl h1
  · right
    rw [h1]
    exact ite_title_ne _

theorem build_page_step_keys (objects : List ExtractedObject)
    (metaBy : List (String × ExtractedObject)) (st : AssembleState) (g : String)
    (h : (st.pages.map Prod.fst).Nodup) :
    (((build_page_step objects metaBy st g).pages).map Prod.fst).Nodup := by
  simp only [build_page_step]
  exact dedupInsert_keys_nodup _ _ _ h

theorem assemble_keys_nodup (objects : List ExtractedObject)
    (metaBy : List (String × ExtractedObject)) :
    ∀ (guids : List String) (st : AssembleState),
      (st.pages.map Prod.fst).Nodup →
      (((guids.foldl (build_page_step objects metaBy) st).pages).map
        Prod.fst).Nodup := by
  intro guids
  induction guids with
  | nil => exact fun st h => h
  | cons g gtl ih =>
    intro st h
    rw [List.foldl_cons]
    exact ih (build_page_step objects metaBy st g)
      (build_page_step_keys objects metaBy st g h)

def nodeUA : ExtractedObject :=
  { obj_type := PAGE_NODE, identity := "<ExtendedGUID> (UA, 1)" }

def metaUA : ExtractedObject :=
  { obj_type := PAGE_META, identity := "<ExtendedGUID> (UA, 2)" }

def nodeUB : ExtractedObject :=
  { obj_type := PAGE_NODE, identity := "<ExtendedGUID> (UB, 1)" }

/-- C1 counterexample: guids UA and UB both fail title resolution (UA's
metadata carries no title property, UB has no metadata and no orphan is
available), yet the result holds one single page: failed-resolution
pages compete for the one slot keyed by the empty pre-sentinel title,
they are not each kept in a slot of their own. -/
theorem untitled_own_slot_cex :
    page_node_guids [nodeUA, metaUA, nodeUB] = ["UA", "UB"] ∧
    build_pages [nodeUA, metaUA, nodeUB] = [{ title := "Untitled" }] ∧
    (build_pages [nodeUA, metaUA, nodeUB]).length ≠ 2 :=
  ⟨rfl, rfl, by decide⟩

/-- C1 (amended): after deduplication the normalized pre-sentinel dedup
keys of the surviving pages are pairwise distinct; in particular all
pages whose title resolution failed share the empty key, so at most one
of them survives (they compete for one slot instead of each keeping its
own), and such a survivor may display the same "Untitled" title as a
page whose metadata title is literally "Untitled". -/
theorem dedup_keys_nodup (objects : List ExtractedObject) :
    (((assemble_pages objects).pages).map Prod.fst).Nodup :=
  assemble_keys_nodup objects (meta_by_guid (page_metas objects))
    (page_node_guids objects)
    { pages := [], orphans := orphan_metas objects } (by simp)

/-! ### C2: page titles and the Untitled sentinel -/

def rtC2 : ExtractedObject :=
  { obj_type := RICH_TEXT, identity := "<ExtendedGUID> (C2, 1)" }

/-- C2 counterexample: with no page metadata at all, the degenerate
path emits its single page through the ExtractedPage dataclass default
title "", not the "Untitled" sentinel. -/
theorem degenerate_title_empty_cex :
    build_pages [rtC2] = [{ title := "", objects := [rtC2] }] ∧
    ("" : String) ≠ "Untitled" :=
  ⟨rfl, by decide⟩

theorem assemble_titles_nonempty (objects : List ExtractedObject)
    (metaBy : List (String × ExtractedObject)) :
    ∀ (guids : List String) (st : AssembleState),
      (∀ e ∈ st.pages, e.2.title ≠ "") →
      ∀ e ∈ (guids.foldl (build_page_step objects metaBy) st).pages,
        e.2.title ≠ "" := by
  intro guids
  induction guids with
  | nil => exact fun st h => h
  | cons g gtl ih =>
    intro st h
    rw [List.foldl_cons]
    apply ih
    intro e he
    rcases build_page_step_pages objects metaBy st g e he with h1 | h1
    · exact h e h1
    · exact h1

/-- C2 (amended): every page emitted through the per-key assembly path
has a nonempty title (the "Untitled" sentinel replaces a failed
resolution at page construction), while the single page of the
degenerate no-page-metadata path keeps the dataclass default empty
title. -/
theorem page_title_spec (objects : List ExtractedObject) :
    (page_metas objects ≠ [] → ∀ p ∈ build_pages objects, p.title ≠ "") ∧
    (page_metas objects = [] → ∀ p ∈ build_pages objects, p.title = "") := by
  constructor
  · intro h p hp
    have hne : (page_metas objects).isEmpty = false := by
      cases hpm : page_metas objects
      · exact absurd hpm h
      · rfl
    simp only [build_pages, hne, Bool.false_eq_true, if_false] at hp
    obtain ⟨e, he, hpe⟩ := List.mem_map.mp hp
    rw [← hpe]
    exact assemble_titles_nonempty objects (meta_by_guid (page_metas objects))
      (page_node_guids objects)
      { pages := [], orphans := orphan_metas objects } (by simp) e he
  · intro h p hp
    have he : (page_metas objects).isEmpty = true := by rw [h]; rfl
    simp only [build_pages, he, if_true] at hp
    by_cases hc : (objects.filter isContent).isEmpty
    · rw [if_pos hc] at hp
      simp at hp
    · rw [if_neg hc] at hp
      simp at hp
      rw [hp]

def nodeT : ExtractedObject :=
  { obj_type := PAGE_NODE, identity := "<ExtendedGUID> (T, 1)" }

def metaT : ExtractedObject :=
  { obj_type := PAGE_META, identity := "<ExtendedGUID> (T, 2)",
    properties := [("CachedTitleString", .str "Intro")] }

/-- C2 witness: a one-key input with resolved metadata; every emitted
page title is nonempty. -/
theorem page_title_spec_witness :
    page_metas [nodeT, metaT] ≠ [] ∧
    (∀ p ∈ build_pages [nodeT, metaT], p.title ≠ "") := by
  have h1 : page_metas [nodeT, metaT] ≠ [] := by
    intro hx
    exact List.cons_ne_nil metaT [] hx
  exact ⟨h1, (page_title_spec [nodeT, metaT]).1 h1⟩
